import Mathlib

/-!
Verification of the superconsole terminal-UI library against its
natural-language specification.

The development shallowly embeds the Rust sources under `src/`.  The repository
ships two historical snapshots of several files; the earlier snapshot
(`src/src/content/line.rs`, `src/src/superconsole.rs`) is embedded in the
namespace `V1`, the later component snapshot (`src/src/components/*.rs`) at the
top of the `Superconsole` namespace.  Files of the repository that are not
present under `src/` (`span.rs`, `lines.rs`, `dimensions.rs`, `components.rs`)
are modelled from the spec; each such definition carries a doc comment starting
with `Modelled from the spec:`.
-/

namespace Superconsole

/-- A single grapheme cluster.  `sym` identifies the cluster, `width` is its
rendered terminal width in columns (multi-column graphemes such as emoji have
`width = 2`). -/
structure Grapheme where
  sym : Nat
  width : Nat
deriving DecidableEq

/-- Modelled from the spec: `Span` (span.rs is missing from src/) — a single
run of text carrying one uniform opaque style.  The content is the list of
grapheme clusters of the span's string. -/
structure Span where
  content : List Grapheme
  style : Nat
deriving DecidableEq

/-- Modelled from the spec: `Span::len` of the later snapshot (span.rs is
missing from src/) — the grapheme-measured display length, where multi-column
graphemes count proportionally to their rendered width.  Pinned by the in-src
test `test_multi_width_unicode` of bordering.rs, where the span "🦶" measures
2 so that 6 / len = 3 repetitions are produced. -/
def Span.len (s : Span) : Nat := (s.content.map Grapheme.width).sum

/-- Modelled from the spec: `Span::iter` (span.rs is missing from src/) —
iterates over the graphemes of a span, yielding one single-grapheme span per
cluster while retaining the styling (used by bordering.rs's
`construct_vertical_padding`, whose comment says "iterating over the padding
here allows us to retain the styling on each duplicate"). -/
def Span.iter (s : Span) : List Span := s.content.map fun g => ⟨[g], s.style⟩

/-- The space grapheme used by padding spans: a single-column blank. -/
def spaceGrapheme : Grapheme := ⟨32, 1⟩

/-- Modelled from the spec: `Span::padding` (span.rs is missing from src/) —
"appends/prepends one synthetic unstyled space-run of the given width"; a
single unstyled span of `amount` spaces. -/
def Span.padding (amount : Nat) : Span := ⟨List.replicate amount spaceGrapheme, 0⟩

/-- The `str.repeat(n)` operation on a span's content: the content concatenated `n` times. -/
def repeatContent (xs : List Grapheme) (n : Nat) : List Grapheme :=
  (List.replicate n xs).flatten

/-- Modelled from the spec: `Dimensions` (dimensions.rs is missing from src/)
— width × height, always non-negative.  The earlier snapshot names the fields
`x`/`y`; `height` is `y`. -/
structure Dimensions where
  width : Nat
  height : Nat
deriving DecidableEq

/-- Modelled from the spec: `Dimensions::intersect` — component-wise min. -/
def Dimensions.intersect (a b : Dimensions) : Dimensions :=
  ⟨min a.width b.width, min a.height b.height⟩

/-- Modelled from the spec: `Dimensions::union` — component-wise max. -/
def Dimensions.union (a b : Dimensions) : Dimensions :=
  ⟨max a.width b.width, max a.height b.height⟩

/-- Component-wise order on dimensions. -/
def Dimensions.le (a b : Dimensions) : Prop :=
  a.width ≤ b.width ∧ a.height ≤ b.height

/-- A line of the later component snapshot: an ordered sequence of spans. -/
structure Line where
  spans : List Span
deriving DecidableEq

/-- The `Line::default()` line: the empty line (zero spans). -/
def Line.default : Line := ⟨[]⟩

/-- The `Line::len` measure: sum of the spans' lengths. -/
def Line.len (l : Line) : Nat := (l.spans.map Span.len).sum

/-- The `Line::pad_right` operation (as in src line.rs): append one unstyled space-run of
the given width; no-op if the amount is 0. -/
def Line.pad_right (l : Line) (amount : Nat) : Line :=
  if amount = 0 then l else ⟨l.spans ++ [Span.padding amount]⟩

/-- The `Line::pad_left` operation (as in src line.rs): prepend one unstyled space-run of
the given width; no-op if the amount is 0. -/
def Line.pad_left (l : Line) (amount : Nat) : Line :=
  if amount = 0 then l else ⟨Span.padding amount :: l.spans⟩

/-- The longest prefix of a grapheme list whose total width fits in `w`. -/
def fitWidth : List Grapheme → Nat → List Grapheme
  | [], _ => []
  | g :: rest, w => if g.width ≤ w then g :: fitWidth rest (w - g.width) else []

/-- Modelled from the spec: width-aware line truncation of the later snapshot
(its line.rs is missing from src/) — "removes whole spans once cumulative
width ≥ max_width; if the cut falls inside a span, shortens that span by
dropping trailing graphemes". -/
def Line.truncate (w : Nat) (l : Line) : Line :=
  ⟨go l.spans w⟩
where
  go : List Span → Nat → List Span
    | [], _ => []
    | s :: rest, w =>
      if s.len ≤ w then s :: go rest (w - s.len)
      else [⟨fitWidth s.content w, s.style⟩]

/-- Modelled from the spec: `to_exact_width` of the later snapshot — pad-right
if under width, truncate if over (re-padding any sub-column remainder so the
result is exact), no-op if equal. -/
def Line.to_exact (w : Nat) (l : Line) : Line :=
  if l.len ≤ w then l.pad_right (w - l.len)
  else (l.truncate w).pad_right (w - (l.truncate w).len)

/-- Lines: an ordered sequence of lines (a rendered frame). -/
abbrev Lines := List Line

/-- Modelled from the spec: `LinesExt::max_line_length` (lines.rs is missing
from src/) — the maximum line width of a frame. -/
def max_line_length (ls : Lines) : Nat := (ls.map Line.len).foldr max 0

/-- Modelled from the spec: `LinesExt::justify` (lines.rs is missing from
src/) — pad every line to the frame's own max line width. -/
def justify (ls : Lines) : Lines :=
  ls.map fun l => l.pad_right (max_line_length ls - l.len)

/-- Modelled from the spec: `LinesExt::pad_lines_top` (lines.rs is missing
from src/) — prepend `amount` completely empty lines; pinned by the in-src
test `test_align_row_center` of alignment.rs, whose expected padding rows are
`Line::default()`. -/
def pad_lines_top (amount : Nat) (ls : Lines) : Lines :=
  List.replicate amount Line.default ++ ls

/-- Modelled from the spec: `LinesExt::pad_lines_bottom` (lines.rs is missing
from src/) — append `amount` completely empty lines. -/
def pad_lines_bottom (amount : Nat) (ls : Lines) : Lines :=
  ls ++ List.replicate amount Line.default

/-- Modelled from the spec: `LinesExt::shrink_lines_to_dimensions` (lines.rs
is missing from src/) — "forcibly shrinks the result to fit the same
intersected bound (trims extra rows/columns)". -/
def shrink_lines_to_dimensions (d : Dimensions) (ls : Lines) : Lines :=
  (ls.map (Line.truncate d.width)).take d.height

/-- Modelled from the spec: `Lines::dimensions` (lines.rs is missing from
src/) — the bounding Dimensions of a frame: max width × line count. -/
def Lines.dimensions (ls : Lines) : Dimensions := ⟨max_line_length ls, ls.length⟩

/-- Modelled from the spec: `LinesExt::set_lines_to_exact_dimensions`
(lines.rs is missing from src/) — pads/reshapes a frame to exactly the target
dimensions: every line to the exact width, then the height is trimmed or
padded with full-width blank rows. -/
def set_lines_to_exact_dimensions (d : Dimensions) (ls : Lines) : Lines :=
  let ls := ls.map (Line.to_exact d.width)
  if d.height ≤ ls.length then ls.take d.height
  else ls ++ List.replicate (d.height - ls.length) (Line.default.to_exact d.width)

/-- The `DrawMode` enumeration from components.rs: Normal for every in-place redraw, Final
exactly once at shutdown. -/
inductive DrawMode where
  | Normal
  | Final
deriving DecidableEq

/-- The `VerticalAlignmentKind` enumeration from alignment.rs. -/
inductive VerticalAlignmentKind where
  | Top
  | Center
  | Bottom
deriving DecidableEq

/-- The `HorizontalAlignmentKind` enumeration from alignment.rs; `Left` carries the justify
flag. -/
inductive HorizontalAlignmentKind where
  | Left (justified : Bool)
  | Center
  | Right
deriving DecidableEq

/-- The vertical stage of `Aligned::draw_unchecked` (alignment.rs lines
92-104), applied to the child's output. -/
def alignVertical (v : VerticalAlignmentKind) (height : Nat) (output : Lines) : Lines :=
  let padding_needed := height - output.length
  match v with
  | .Top => output
  | .Center =>
    let top_pad := padding_needed / 2
    pad_lines_bottom (padding_needed - top_pad) (pad_lines_top top_pad output)
  | .Bottom => pad_lines_top padding_needed output

/-- The horizontal stage of `Aligned::draw_unchecked` (alignment.rs lines
106-127). -/
def alignHorizontal (h : HorizontalAlignmentKind) (width : Nat) (output : Lines) : Lines :=
  match h with
  | .Left justified => if justified then justify output else output
  | .Center =>
    output.map fun line =>
      let padding_needed := width - line.len
      let left_pad := padding_needed / 2
      (line.pad_left left_pad).pad_right (padding_needed - left_pad)
  | .Right => output.map fun line => line.pad_left (width - line.len)

/-- The `Aligned::draw_unchecked` transformer (alignment.rs): draws the child at the full
given dimensions (the child's output is taken as a parameter so the theorems
quantify over every possible child), vertically pads, then horizontally
aligns. -/
def Aligned.draw_unchecked (h : HorizontalAlignmentKind) (v : VerticalAlignmentKind)
    (childOut : Lines) (d : Dimensions) : Lines :=
  alignHorizontal h d.width (alignVertical v d.height childOut)

/-- The `BorderedSpec` structure from bordering.rs: an optional border span per side. -/
structure BorderedSpec where
  left : Option Span
  right : Option Span
  top : Option Span
  bottom : Option Span
deriving DecidableEq

/-- The `opt_len` helper from `Bordered::draw_unchecked`. -/
def optLen : Option Span → Nat
  | some word => word.len
  | none => 0

/-- The `construct_vertical_padding` helper (bordering.rs lines 84-95): one line per
grapheme of the border span, each the grapheme's content repeated
`width / span.len()` times. -/
def construct_vertical_padding (padding : Span) (width : Nat) : Lines :=
  padding.iter.map fun s => ⟨[⟨repeatContent s.content (width / s.len), s.style⟩]⟩

/-- Prepend the left border span and append the right border span to a line
(bordering.rs lines 117-124). -/
def addSideBorders (left right : Option Span) (l : Line) : Line :=
  let l := match left with
    | some s => Line.mk (s :: l.spans)
    | none => l
  match right with
  | some s => Line.mk (l.spans ++ [s])
  | none => l

/-- The `Bordered::draw_unchecked` transformer (bordering.rs lines 98-135): shrinks the
dimension budget by the border widths, draws the child through the internal
`Aligned(Left(justified), Top)` wrapper, adds side borders to every line, then
prepends/appends the tiled top/bottom border rows (the bottom tiling measures
the output after the top rows were inserted, as in the source). -/
def Bordered.draw_unchecked (b : BorderedSpec) (childOut : Lines) (d : Dimensions) : Lines :=
  let new_dims : Dimensions :=
    ⟨d.width - (optLen b.left + optLen b.right), d.height - (optLen b.top + optLen b.bottom)⟩
  let output := Aligned.draw_unchecked (.Left true) .Top childOut new_dims
  let output := output.map (addSideBorders b.left b.right)
  let output := match b.top with
    | some t => construct_vertical_padding t (max_line_length output) ++ output
    | none => output
  match b.bottom with
  | some bo => output ++ construct_vertical_padding bo (max_line_length output)
  | none => output

/-- The `Bounded::draw_unchecked` transformer (bounding.rs lines 37-50): the child is drawn at
the intersected budget (its output is taken as a parameter so the theorems
quantify over every possible child output, including output exceeding the
budget), then the result is forcibly shrunk to the same intersected bound. -/
def Bounded.draw_unchecked (max_size : Dimensions) (childOut : Lines) (d : Dimensions) : Lines :=
  shrink_lines_to_dimensions (max_size.intersect d) childOut

/-- One draw of `Expanding::draw_unchecked` (expanding.rs lines 34-50) as a
transition on the remembered-maximum cell: the new maximum is the union of
the cell with the child output's dimensions, and the output is reshaped to
exactly the new maximum intersected with the offered dimensions. -/
def Expanding.step (maximum : Dimensions) (childOut : Lines) (d : Dimensions) :
    Dimensions × Lines :=
  let new_max := maximum.union childOut.dimensions
  (new_max, set_lines_to_exact_dimensions (new_max.intersect d) childOut)

/-- The cell value after a sequence of draws of one `Expanding` instance at a
fixed offered dimension (initial cell `Cell::default()` is (0, 0)). -/
def Expanding.cellAfter (d : Dimensions) : List Lines → Dimensions
  | [] => ⟨0, 0⟩
  | childOut :: rest => (Expanding.step (Expanding.cellAfter d rest) childOut d).1

/-- The outputs of a sequence of draws of one `Expanding` instance at a fixed
offered dimension; the head of the input list is the last draw. -/
def Expanding.outputs (d : Dimensions) : List Lines → List Lines
  | [] => []
  | childOut :: rest =>
    (Expanding.step (Expanding.cellAfter d rest) childOut d).2 :: Expanding.outputs d rest

/-!
The earlier snapshot: `src/src/content/line.rs` and `src/src/superconsole.rs`.
-/

namespace V1

/-- A line of the earlier snapshot (`src/src/content/line.rs`): an ordered
sequence of spans. -/
structure Line where
  spans : List Span
deriving DecidableEq

/-- Modelled from the spec: `Span::len` of the earlier snapshot (its span.rs
is missing from src/) — the grapheme-measured length of the span, the number
of grapheme clusters it holds.  This is the measure the in-src earlier
snapshot uses throughout: `truncate_line` counts `span.content.graphemes(true)`
clusters, and superconsole.rs documents the summed `Line::len` threshold as
"1000000 graphemes". -/
def Span.len (s : Span) : Nat := s.content.length

/-- The `Line::len` measure (line.rs lines 33-36): sum of the spans' lengths. -/
def Line.len (l : Line) : Nat := (l.spans.map Span.len).sum

/-- The `Line::pad_right` operation (line.rs lines 45-51): push one unstyled space-run of
the given width; no-op if the amount is 0. -/
def Line.pad_right (l : Line) (amount : Nat) : Line :=
  if amount = 0 then l else ⟨l.spans ++ [Span.padding amount]⟩

/-- The `Line::pad_left` operation (line.rs lines 54-60): insert one unstyled space-run of
the given width at the front; no-op if the amount is 0. -/
def Line.pad_left (l : Line) (amount : Nat) : Line :=
  if amount = 0 then l else ⟨Span.padding amount :: l.spans⟩

/-- The `Line::truncate_line` operation (line.rs lines 65-94): walks the spans accumulating
the grapheme count; once the accumulated width reaches `max_width` the
remaining spans are dropped, and a span that would overflow is shortened to
exactly the remaining number of graphemes. -/
def Line.truncate_line (l : Line) (max_width : Nat) : Line :=
  ⟨go l.spans 0 max_width⟩
where
  go : List Span → Nat → Nat → List Span
    | [], _, _ => []
    | s :: rest, cur_width, max_width =>
      if max_width ≤ cur_width then []
      else
        let word_len := s.content.length
        if max_width < word_len + cur_width then
          [⟨s.content.take (max_width - cur_width), s.style⟩]
        else s :: go rest (cur_width + word_len) max_width

/-- The `Line::to_exact_width` operation (line.rs lines 98-109): pad-right if under the
width, truncate if over, no-op if equal. -/
def Line.to_exact_width (l : Line) (exact_width : Nat) : Line :=
  if l.len < exact_width then l.pad_right (exact_width - l.len)
  else if l.len = exact_width then l
  else l.truncate_line exact_width

/-- The style-tagged grapheme stream of a list of spans. -/
def spansSem (spans : List Span) : List (Grapheme × Nat) :=
  spans.flatMap fun s => s.content.map fun g => (g, s.style)

/-- The style-tagged grapheme stream of a line: the semantic content compared
by `Line::eq` (line.rs lines 18-30), which flattens every span into its
graphemes and compares the streams. -/
def Line.sem (l : Line) : List (Grapheme × Nat) :=
  spansSem l.spans

/-- The constant `MINIMUM_EMIT` (superconsole.rs line 15). -/
def MINIMUM_EMIT : Nat := 5

/-- The constant `MAX_GRAPHEME_BUFFER` (superconsole.rs line 16). -/
def MAX_GRAPHEME_BUFFER : Nat := 1000000

/-- The `is_big` heuristic (superconsole.rs lines 145-148): whether the emission queue's
summed grapheme length exceeds the fixed threshold. -/
def is_big (buf : List Line) : Bool := MAX_GRAPHEME_BUFFER < (buf.map Line.len).sum

/-- The console state mutated by render calls: the emission queue, the
Canvas's remembered previous frame height, and the optional fallback size.
The remembered height is Modelled from the spec: §4.3 Canvas (the earlier
components.rs is missing from src/) — "owns the root Component and remembers
the previous frame's line count". -/
structure Console where
  to_emit : List Line
  lastHeight : Nat
  default_size : Option Dimensions
deriving DecidableEq

/-- The external byte-producing operations a render cycle uses, each of which
may fail: terminal size acquisition (`terminal::size()`), cursor
repositioning (`Canvas::move_up`), rendering one line to bytes
(`Line::render`) and the final clear-to-end-of-screen instruction.  The
theorems quantify over every behaviour of these operations. -/
structure Ops (ε : Type) where
  termSize : Except ε Dimensions
  moveUp : Nat → Except ε (List Nat)
  renderLine : Line → Except ε (List Nat)
  clearDown : Except ε (List Nat)

/-- Render a list of lines to bytes in order, propagating the first failure
(`LinesExt::render` renders each drained line in turn). -/
def renderLines (O : Ops ε) : List Line → Except ε (List Nat)
  | [] => .ok []
  | l :: rest => do
    let b ← O.renderLine l
    let bs ← renderLines O rest
    .ok (b ++ bs)

/-- The `SuperConsole::size` step (superconsole.rs lines 95-103): the terminal size,
falling back to the configured default when unavailable, else failing. -/
def Console.size (O : Ops ε) (c : Console) : Except ε Dimensions :=
  match O.termSize with
  | .ok s => .ok s
  | .error e =>
    match c.default_size with
    | some d => .ok d
    | none => .error e

/-- Modelled from the spec §4.3: `Canvas::move_up` (the earlier components.rs
is missing from src/) — emit the instructions moving the cursor up by the
remembered previous frame height, a no-op when that height is 0. -/
def Canvas.move_up (O : Ops ε) (lastHeight : Nat) : Except ε (List Nat) :=
  if lastHeight = 0 then .ok [] else O.moveUp lastHeight

/-- The emission limit of a render cycle (superconsole.rs lines 157-164):
unbounded (`none`) in Final mode or when the queue is oversized, otherwise
`max(height − frame_height, MINIMUM_EMIT)`. -/
def emitLimit (mode : DrawMode) (q : List Line) (size : Dimensions) (frameLen : Nat) :
    Option Nat :=
  match mode with
  | .Normal => if is_big q then none else some (max (size.height - frameLen) MINIMUM_EMIT)
  | .Final => none

/-- The number of queued lines a render cycle drains: the limit capped by the
queue length (an unbounded limit drains everything). -/
def emitAmt (mode : DrawMode) (q : List Line) (size : Dimensions) (frameLen : Nat) : Nat :=
  min ((emitLimit mode q size frameLen).getD q.length) q.length

/-- The remembered row count after a successful draw, Modelled from the spec
§4.3 (the earlier components.rs is missing from src/): the new frame's line
count in Normal mode, reset to 0 in Final mode. -/
def newHeightOf (mode : DrawMode) (frame : List Line) : Nat :=
  match mode with
  | .Normal => frame.length
  | .Final => 0

/-- The `SuperConsole::render_general` cycle (superconsole.rs lines 135-172): move the
cursor to the top of the canvas, draw the frame, compute the emission limit,
render the drained emitted lines and then the frame into the buffer, and
append the clear instruction.  The drain semantics of `LinesExt::render`
(lines.rs is missing from src/) is Modelled from the spec — at most `limit`
lines are removed from the front of the queue and rendered — and pinned by
the in-src tests `test_small_buffer` (exactly `MINIMUM_EMIT` drained on a
height-2 terminal) and `test_huge_buffer` (everything drained when
oversized). -/
def render_general (O : Ops ε) (root : Dimensions → DrawMode → Except ε (List Line))
    (c : Console) (mode : DrawMode) (size : Dimensions) : Except ε (Console × List Nat) := do
  let mu ← Canvas.move_up O c.lastHeight
  let frame ← root size mode
  let amt := emitAmt mode c.to_emit size frame.length
  let eB ← renderLines O (c.to_emit.take amt)
  let fB ← renderLines O frame
  let clr ← O.clearDown
  .ok (⟨c.to_emit.drop amt, newHeightOf mode frame, c.default_size⟩, mu ++ eB ++ fB ++ clr)

/-- The `SuperConsole::render_with_mode` step (superconsole.rs lines 123-132): acquire
the size, produce the whole cycle's buffer, and only on success hand it to
the sink (`send_to_tty`) as one write; on failure the sink is untouched and
the error is returned. -/
def render_with_mode (O : Ops ε) (root : Dimensions → DrawMode → Except ε (List Line))
    (c : Console) (mode : DrawMode) (sink : List (List Nat)) :
    Except ε Console × List (List Nat) :=
  match (do
    let size ← Console.size O c
    render_general O root c mode size : Except ε (Console × List Nat)) with
  | .ok (c', buf) => (.ok c', sink ++ [buf])
  | .error e => (.error e, sink)

/-- The `while` loop of `SuperConsole::render` (superconsole.rs lines 60-67),
with explicit fuel: loop while `!has_rendered || (anything_emitted &&
!to_emit.is_empty())`, where one iteration performs a Normal-mode
`render_with_mode` and then sets `anything_emitted = last_len ==
to_emit.len()`. -/
def renderLoop (O : Ops ε) (root : Dimensions → DrawMode → Except ε (List Line)) :
    Nat → Console → List (List Nat) → Bool → Bool →
    Option (Except ε Console × List (List Nat))
  | 0, _, _, _, _ => none
  | fuel + 1, c, sink, has_rendered, anything_emitted =>
    if ¬has_rendered ∨ (anything_emitted ∧ c.to_emit ≠ []) then
      let last_len := c.to_emit.length
      match render_with_mode O root c .Normal sink with
      | (.ok c', sink') =>
        renderLoop O root fuel c' sink' true (decide (last_len = c'.to_emit.length))
      | (.error e, sink') => some (.error e, sink')
    else some (.ok c, sink)

/-- The `SuperConsole::render` entry point (superconsole.rs lines 57-70): run the loop with
enough fuel (the loop is proved to finish within it). -/
def render (O : Ops ε) (root : Dimensions → DrawMode → Except ε (List Line))
    (c : Console) (sink : List (List Nat)) : Option (Except ε Console × List (List Nat)) :=
  renderLoop O root (c.to_emit.length + 2) c sink false true

/-- The `SuperConsole::finalize` entry point (superconsole.rs lines 74-76): a single
Final-mode render. -/
def finalize (O : Ops ε) (root : Dimensions → DrawMode → Except ε (List Line))
    (c : Console) (sink : List (List Nat)) : Except ε Console × List (List Nat) :=
  render_with_mode O root c .Final sink

end V1

/-!
Concrete fixtures used by the witness and counterexample theorems.
-/

/-- A single-column grapheme with the given identifier. -/
def ug (n : Nat) : Grapheme := ⟨n, 1⟩

/-- A double-column grapheme (such as an emoji). -/
def wideGrapheme : Grapheme := ⟨1000, 2⟩

/-- An unstyled span of `k` distinct single-column graphemes. -/
def uspan (n k : Nat) : Span := ⟨(List.range k).map fun i => ug (n + i), 0⟩

/-- A child output of a single 13-column line. -/
def child13 : Lines := [⟨[uspan 0 13]⟩]

/-- A border spec with only a top border made of one double-column grapheme. -/
def wideTopSpec : BorderedSpec := ⟨none, none, some ⟨[wideGrapheme], 7⟩, none⟩

/-- The default-style top border span "@@": two single-column graphemes. -/
def atAtSpan : Span := ⟨[ug 64, ug 64], 7⟩

/-- A border spec with only the "@@" top border. -/
def atAtSpec : BorderedSpec := ⟨none, none, some atAtSpan, none⟩

/-- A child output of one 2-column line. -/
def childAB : Lines := [⟨[uspan 10 2]⟩]

/-- A frame of `k` one-column rows, used for the Expanding draws. -/
def rowsOf (k : Nat) : Lines := List.replicate k ⟨[uspan 0 2]⟩

/-- An emitted log line holding one grapheme. -/
def exLine : V1.Line := ⟨[⟨[ug 5], 0⟩]⟩

/-- Byte-producing operations that always succeed: the terminal reports
100×2, every rendered line is one byte `0`, the clear instruction is the
byte `7`. -/
def exOps : V1.Ops Unit :=
  ⟨.ok ⟨100, 2⟩, fun _ => .ok [9], fun _ => .ok [0], .ok [7]⟩

/-- Byte-producing operations whose size acquisition fails. -/
def exFailOps : V1.Ops Unit :=
  ⟨.error (), fun _ => .ok [9], fun _ => .ok [0], .ok [7]⟩

/-- A root component that always draws an empty frame. -/
def exRoot : Dimensions → DrawMode → Except Unit (List V1.Line) := fun _ _ => .ok []

/-- A console with six queued one-grapheme lines and no previous frame. -/
def exConsole6 : V1.Console := ⟨List.replicate 6 exLine, 0, none⟩

/-- A console with one queued one-grapheme line and no previous frame. -/
def exConsole1 : V1.Console := ⟨[exLine], 0, none⟩

/-- A console with seven queued one-grapheme lines and no previous frame. -/
def exConsole7 : V1.Console := ⟨List.replicate 7 exLine, 0, none⟩

/-!
Lemmas about the earlier snapshot's content model.
-/

namespace V1

theorem Line.pad_right_len (l : Line) (a : Nat) : (l.pad_right a).len = l.len + a := by
  unfold Line.pad_right
  split
  · omega
  · simp [Line.len, Span.padding, Span.len]

theorem truncate_go_len (spans : List Span) :
    ∀ cur max_width : Nat, cur ≤ max_width →
      ((Line.truncate_line.go spans cur max_width).map Span.len).sum
        = min ((spans.map Span.len).sum) (max_width - cur) := by
  induction spans with
  | nil => intro cur max_width _; simp [Line.truncate_line.go]
  | cons s rest ih =>
    intro cur max_width hcur
    simp only [Line.truncate_line.go]
    by_cases h1 : max_width ≤ cur
    · simp only [if_pos h1]
      have : max_width = cur := le_antisymm h1 hcur
      simp [this]
    · simp only [if_neg h1]
      have hs : Span.len s = s.content.length := rfl
      by_cases h2 : max_width < s.content.length + cur
      · simp only [if_pos h2]
        have htake : Span.len ⟨s.content.take (max_width - cur), s.style⟩
            = (s.content.take (max_width - cur)).length := rfl
        simp only [List.map_cons, List.map_nil, List.sum_cons, List.sum_nil, htake,
          List.length_take, hs]
        omega
      · simp only [if_neg h2]
        simp only [List.map_cons, List.sum_cons]
        rw [ih (cur + s.content.length) max_width (by omega), hs]
        omega

theorem Line.truncate_line_len (l : Line) (w : Nat) :
    (l.truncate_line w).len = min l.len w := by
  have := truncate_go_len l.spans 0 w (Nat.zero_le w)
  simpa [Line.truncate_line, Line.len] using this

theorem spansSem_eq_nil (spans : List Span) (h : (spans.map Span.len).sum = 0) :
    spansSem spans = [] := by
  induction spans with
  | nil => rfl
  | cons s rest ih =>
    simp only [List.map_cons, List.sum_cons] at h
    have hlen : Span.len s = s.content.length := rfl
    rw [hlen] at h
    have hs : s.content = [] := List.length_eq_zero.mp (by omega)
    simp only [spansSem, List.flatMap_cons, hs, List.map_nil, List.nil_append]
    exact ih (by omega)

theorem truncate_go_sem (spans : List Span) :
    ∀ cur max_width : Nat, (spans.map Span.len).sum + cur ≤ max_width →
      spansSem (Line.truncate_line.go spans cur max_width) = spansSem spans := by
  induction spans with
  | nil => intro cur max_width _; rfl
  | cons s rest ih =>
    intro cur max_width h
    have hlen : Span.len s = s.content.length := rfl
    simp only [List.map_cons, List.sum_cons, hlen] at h
    simp only [Line.truncate_line.go]
    by_cases h1 : max_width ≤ cur
    · simp only [if_pos h1]
      have hz : ((s :: rest).map Span.len).sum = 0 := by
        simp only [List.map_cons, List.sum_cons, hlen]
        omega
      rw [spansSem_eq_nil _ hz]
      rfl
    · simp only [if_neg h1]
      have h2 : ¬ max_width < s.content.length + cur := by omega
      simp only [if_neg h2]
      have hrec := ih (cur + s.content.length) max_width (by omega)
      simp only [spansSem, List.flatMap_cons] at hrec ⊢
      rw [hrec]

end V1

/-!
Claim theorems for the content model.
-/

/-- C7: for every Line `L` and every width `W`, `to_exact_width(L, W)` yields
a line whose grapheme-measured length (the sum of its spans' lengths) is
exactly `W`: it pads on the right when under, truncates on the right when
over, and is a no-op when already equal. -/
theorem to_exact_width_exact (l : V1.Line) (w : Nat) :
    (l.to_exact_width w).len = w := by
  unfold V1.Line.to_exact_width
  split
  · rw [V1.Line.pad_right_len]; omega
  · split
    · assumption
    · rw [V1.Line.truncate_line_len]; omega

/-- C8: padding a line on the right by `k` and then truncating to width
`len(L) + k` yields a line semantically equal (identical style-tagged
grapheme stream, the comparison `Line::eq` performs) to the padded line
unchanged. -/
theorem truncate_pad_right_id (l : V1.Line) (k : Nat) :
    ((l.pad_right k).truncate_line (l.len + k)).sem = (l.pad_right k).sem := by
  have hlen : ((l.pad_right k).spans.map V1.Span.len).sum = l.len + k := by
    have := V1.Line.pad_right_len l k
    simpa [V1.Line.len] using this
  have := V1.truncate_go_sem (l.pad_right k).spans 0 (l.len + k) (by omega)
  simpa [V1.Line.truncate_line, V1.Line.sem] using this

/-!
Lemmas about the later snapshot's content model and components.
-/

theorem pad_right_len_w (l : Line) (a : Nat) : (l.pad_right a).len = l.len + a := by
  unfold Line.pad_right
  split
  · omega
  · simp [Line.len, Span.padding, Span.len, spaceGrapheme]

theorem fitWidth_sum_le (gs : List Grapheme) :
    ∀ w, ((fitWidth gs w).map Grapheme.width).sum ≤ w := by
  induction gs with
  | nil => intro w; simp [fitWidth]
  | cons g rest ih =>
    intro w
    simp only [fitWidth]
    split
    · simp only [List.map_cons, List.sum_cons]
      have := ih (w - g.width)
      omega
    · simp

theorem truncate_go_le (spans : List Span) :
    ∀ w, ((Line.truncate.go spans w).map Span.len).sum ≤ w := by
  induction spans with
  | nil => intro w; simp [Line.truncate.go]
  | cons s rest ih =>
    intro w
    simp only [Line.truncate.go]
    split
    · simp only [List.map_cons, List.sum_cons]
      have := ih (w - s.len)
      omega
    · simp only [List.map_cons, List.map_nil, List.sum_cons, List.sum_nil]
      have hs : Span.len ⟨fitWidth s.content w, s.style⟩
          = ((fitWidth s.content w).map Grapheme.width).sum := rfl
      rw [hs]
      simpa using fitWidth_sum_le s.content w

theorem truncate_len_le (l : Line) (w : Nat) : (Line.truncate w l).len ≤ w := by
  have := truncate_go_le l.spans w
  simpa [Line.truncate, Line.len] using this

theorem to_exact_len (l : Line) (w : Nat) : (Line.to_exact w l).len = w := by
  unfold Line.to_exact
  split
  · rw [pad_right_len_w]; omega
  · rw [pad_right_len_w]
    have := truncate_len_le l w
    omega

/-- C4: the output of `Bounded(child, max_w, max_h)` has at most `max_h` rows
and every row has width at most `max_w`, for every child output (including
output exceeding the offered budget) and every requested outer dimension at
least as large as the configured maxima. -/
theorem bounded_output_within_max (max_size : Dimensions) (childOut : Lines) (d : Dimensions)
    (_hd : max_size.le d) :
    (Bounded.draw_unchecked max_size childOut d).length ≤ max_size.height
      ∧ ∀ l ∈ Bounded.draw_unchecked max_size childOut d, l.len ≤ max_size.width := by
  unfold Bounded.draw_unchecked shrink_lines_to_dimensions
  constructor
  · have h1 : (((childOut.map (Line.truncate (max_size.intersect d).width)).take
        (max_size.intersect d).height)).length ≤ (max_size.intersect d).height := by
      rw [List.length_take]
      omega
    have h2 : (max_size.intersect d).height ≤ max_size.height := by
      simp [Dimensions.intersect]
    omega
  · intro l hl
    have hl' : l ∈ childOut.map (Line.truncate (max_size.intersect d).width) :=
      List.take_subset _ _ hl
    rcases List.mem_map.mp hl' with ⟨orig, _, rfl⟩
    have h1 := truncate_len_le orig (max_size.intersect d).width
    have h2 : (max_size.intersect d).width ≤ max_size.width := by
      simp [Dimensions.intersect]
    omega

/-- C4 witness: the concrete instance of bounding.rs's `test_bounding`:
maxima (2, 1), two 11-column rows, outer dimensions (50, 50). -/
theorem bounded_output_within_max_witness :
    (Dimensions.le ⟨2, 1⟩ ⟨50, 50⟩)
      ∧ ((Bounded.draw_unchecked ⟨2, 1⟩ [⟨[uspan 0 11]⟩, ⟨[uspan 0 11]⟩] ⟨50, 50⟩).length ≤ 1
        ∧ ∀ l ∈ Bounded.draw_unchecked ⟨2, 1⟩ [⟨[uspan 0 11]⟩, ⟨[uspan 0 11]⟩] ⟨50, 50⟩,
            l.len ≤ 2) :=
  ⟨⟨by decide, by decide⟩,
   bounded_output_within_max ⟨2, 1⟩ [⟨[uspan 0 11]⟩, ⟨[uspan 0 11]⟩] ⟨50, 50⟩
     ⟨by decide, by decide⟩⟩

/-- C10 counterexample: an `Aligned` with horizontal Center and vertical
Bottom, a single 2-column child row and offered dimensions (4, 2).  One row
of vertical padding is added, yet both output rows have width 4 — the padding
row was expanded into spaces by the horizontal centering stage, so it is not
an empty line. -/
theorem aligned_center_bottom_padding_not_empty :
    (Aligned.draw_unchecked .Center .Bottom childAB ⟨4, 2⟩).map Line.len = [4, 4]
      ∧ (Aligned.draw_unchecked .Center .Bottom childAB ⟨4, 2⟩).map
          (fun l => l.spans.length) = [2, 3]
      ∧ (4 : Nat) ≠ 0 := by
  refine ⟨by decide, by decide, by decide⟩

/-- C10 amended: the rows added by the vertical Center/Bottom padding stage
are completely empty lines (zero spans) provided the horizontal alignment is
Left unjustified — the horizontal stage is then a no-op; with Center, Right
or justified-Left horizontal alignment the padding rows are subsequently
padded with spaces. -/
theorem aligned_vertical_padding_rows_empty (childOut : Lines) (d : Dimensions) :
    Aligned.draw_unchecked (.Left false) .Center childOut d
      = List.replicate ((d.height - childOut.length) / 2) Line.default
          ++ childOut
          ++ List.replicate
              ((d.height - childOut.length) - (d.height - childOut.length) / 2)
              Line.default
    ∧ Aligned.draw_unchecked (.Left false) .Bottom childOut d
      = List.replicate (d.height - childOut.length) Line.default ++ childOut := by
  constructor <;>
    simp [Aligned.draw_unchecked, alignVertical, alignHorizontal, pad_lines_top,
      pad_lines_bottom, List.append_assoc]

/-!
Bordered top/bottom tiling (C2).
-/

theorem repeatContent_width_sum (xs : List Grapheme) (n : Nat) :
    ((repeatContent xs n).map Grapheme.width).sum = n * (xs.map Grapheme.width).sum := by
  induction n with
  | zero => simp [repeatContent]
  | succ n ih =>
    simp only [repeatContent, List.replicate_succ, List.flatten_cons, List.map_append,
      List.sum_append]
    rw [show ((List.replicate n xs).flatten.map Grapheme.width).sum
        = ((repeatContent xs n).map Grapheme.width).sum from rfl, ih]
    ring

theorem span_single_len (g : Grapheme) (st : Nat) : Span.len ⟨[g], st⟩ = g.width := by
  simp [Span.len]

theorem construct_vertical_padding_row_len (t : Span) (w : Nat) :
    ∀ l ∈ construct_vertical_padding t w,
      ∃ g ∈ t.content, l.len = (w / g.width) * g.width := by
  intro l hl
  simp only [construct_vertical_padding, Span.iter, List.map_map, List.mem_map,
    Function.comp, span_single_len] at hl
  rcases hl with ⟨g, hg, rfl⟩
  refine ⟨g, hg, ?_⟩
  have hs : Span.len ⟨repeatContent [g] (w / g.width), t.style⟩
      = ((repeatContent [g] (w / g.width)).map Grapheme.width).sum := rfl
  simp only [Line.len, List.map_cons, List.map_nil, List.sum_cons, List.sum_nil, hs,
    repeatContent_width_sum]
  simp

/-- C2 amended: for every Bordered draw whose spec has a top border span `t`,
the output starts with exactly one tiled row per grapheme of `t`; each such
row is its grapheme's content repeated `W / width(g)` times, where `W` is the
maximum line width of the bordered content, so its width is the largest
multiple of `width(g)` not exceeding `W` — which is exactly `W` whenever every
grapheme of the border span is single-column (such as the "@@" span of the
claim's example), with the final partial repetition truncated. -/
theorem bordered_top_border_rows (b : BorderedSpec) (t : Span) (childOut : Lines)
    (d : Dimensions) (htop : b.top = some t) :
    ∃ rest,
      Bordered.draw_unchecked b childOut d
          = construct_vertical_padding t
              (max_line_length ((Aligned.draw_unchecked (.Left true) .Top childOut
                  ⟨d.width - (optLen b.left + optLen b.right),
                   d.height - (optLen b.top + optLen b.bottom)⟩).map
                (addSideBorders b.left b.right))) ++ rest
        ∧ (construct_vertical_padding t
              (max_line_length ((Aligned.draw_unchecked (.Left true) .Top childOut
                  ⟨d.width - (optLen b.left + optLen b.right),
                   d.height - (optLen b.top + optLen b.bottom)⟩).map
                (addSideBorders b.left b.right)))).length = t.content.length
        ∧ (∀ W, (∀ l ∈ construct_vertical_padding t W,
              ∃ g ∈ t.content, l.len = (W / g.width) * g.width)
            ∧ ((∀ g ∈ t.content, g.width = 1) →
                ∀ l ∈ construct_vertical_padding t W, l.len = W)) := by
  have hW : ∀ W, (∀ l ∈ construct_vertical_padding t W,
        ∃ g ∈ t.content, l.len = (W / g.width) * g.width)
      ∧ ((∀ g ∈ t.content, g.width = 1) →
          ∀ l ∈ construct_vertical_padding t W, l.len = W) := by
    intro W
    refine ⟨construct_vertical_padding_row_len t W, fun hw l hl => ?_⟩
    rcases construct_vertical_padding_row_len t W l hl with ⟨g, hg, hlen⟩
    rw [hlen, hw g hg]
    simp
  have hlen : ∀ W', (construct_vertical_padding t W').length = t.content.length := by
    intro W'
    simp [construct_vertical_padding, Span.iter]
  rcases hbot : b.bottom with _ | bo <;>
    simp only [Bordered.draw_unchecked, htop, hbot, List.append_assoc] <;>
    exact ⟨_, rfl, hlen _, hW⟩

/-- C2 witness: the "@@" top border of the claim's example at content width
13 — applying the theorem at the concrete instance. -/
theorem bordered_top_border_rows_witness :
    (atAtSpec.top = some atAtSpan)
      ∧ ∃ rest,
        Bordered.draw_unchecked atAtSpec child13 ⟨13, 9⟩
            = construct_vertical_padding atAtSpan
                (max_line_length ((Aligned.draw_unchecked (.Left true) .Top child13
                    ⟨13 - (optLen atAtSpec.left + optLen atAtSpec.right),
                     9 - (optLen atAtSpec.top + optLen atAtSpec.bottom)⟩).map
                  (addSideBorders atAtSpec.left atAtSpec.right))) ++ rest
          ∧ (construct_vertical_padding atAtSpan
                (max_line_length ((Aligned.draw_unchecked (.Left true) .Top child13
                    ⟨13 - (optLen atAtSpec.left + optLen atAtSpec.right),
                     9 - (optLen atAtSpec.top + optLen atAtSpec.bottom)⟩).map
                  (addSideBorders atAtSpec.left atAtSpec.right)))).length
              = atAtSpan.content.length
          ∧ (∀ W, (∀ l ∈ construct_vertical_padding atAtSpan W,
                ∃ g ∈ atAtSpan.content, l.len = (W / g.width) * g.width)
              ∧ ((∀ g ∈ atAtSpan.content, g.width = 1) →
                  ∀ l ∈ construct_vertical_padding atAtSpan W, l.len = W)) :=
  ⟨rfl, bordered_top_border_rows atAtSpec atAtSpan child13 ⟨13, 9⟩ rfl⟩

/-- C2 counterexample: a top border made of one double-column grapheme over
content of maximum width 13.  The claim as stated requires the border row to
be tiled to exactly the output's maximum line width (13); the code produces a
row of width 2 * (13 / 2) = 12, and the output's maximum line width is 13. -/
theorem bordered_wide_top_row_not_exact :
    (Bordered.draw_unchecked wideTopSpec child13 ⟨13, 7⟩).map Line.len = [12, 13]
      ∧ max_line_length (Bordered.draw_unchecked wideTopSpec child13 ⟨13, 7⟩) = 13
      ∧ (12 : Nat) ≠ 13 := by
  refine ⟨by decide, by decide, by decide⟩

/-!
Expanding never shrinks (C5).
-/

theorem Dimensions.le_trans {a b c : Dimensions} (h1 : a.le b) (h2 : b.le c) : a.le c :=
  ⟨Nat.le_trans h1.1 h2.1, Nat.le_trans h1.2 h2.2⟩

theorem Dimensions.le_union_left (a b : Dimensions) : a.le (a.union b) :=
  ⟨Nat.le_max_left _ _, Nat.le_max_left _ _⟩

theorem Dimensions.intersect_mono_left {a b : Dimensions} (c : Dimensions) (h : a.le b) :
    (a.intersect c).le (b.intersect c) := by
  rcases h with ⟨h1, h2⟩
  constructor
  · simp only [Dimensions.intersect]
    omega
  · simp only [Dimensions.intersect]
    omega

theorem max_line_length_const (w : Nat) :
    ∀ ls : Lines, ls ≠ [] → (∀ l ∈ ls, l.len = w) → max_line_length ls = w := by
  intro ls
  induction ls with
  | nil => intro h; exact absurd rfl h
  | cons l rest ih =>
    intro _ hall
    have hl : l.len = w := hall l (List.mem_cons_self l rest)
    rcases rest with _ | ⟨r, rs⟩
    · simp [max_line_length, hl]
    · have hrest := ih (by simp) fun x hx => hall x (List.mem_cons_of_mem l hx)
      simp only [max_line_length, List.map_cons, List.foldr_cons] at hrest ⊢
      rw [hl, hrest]
      exact Nat.max_self w

theorem set_exact_dims (d : Dimensions) (ls : Lines) :
    Lines.dimensions (set_lines_to_exact_dimensions d ls)
      = if d.height = 0 then ⟨0, 0⟩ else d := by
  unfold set_lines_to_exact_dimensions
  by_cases hh : d.height = 0
  · simp [hh, Lines.dimensions, max_line_length]
  · simp only [if_neg hh]
    split
    · rename_i hle
      have hlen : ((ls.map (Line.to_exact d.width)).take d.height).length = d.height := by
        rw [List.length_take]
        simp only [List.length_map] at hle ⊢
        omega
      have hmll : max_line_length ((ls.map (Line.to_exact d.width)).take d.height)
          = d.width := by
        apply max_line_length_const
        · intro hnil
          rw [hnil] at hlen
          simp at hlen
          omega
        · intro l hl
          rcases List.mem_map.mp (List.take_subset _ _ hl) with ⟨orig, _, rfl⟩
          exact to_exact_len orig d.width
      simp [Lines.dimensions, hmll, hlen]
    · rename_i hgt
      have hlen : ((ls.map (Line.to_exact d.width))
          ++ List.replicate (d.height - (ls.map (Line.to_exact d.width)).length)
              (Line.default.to_exact d.width)).length = d.height := by
        simp only [List.length_append, List.length_replicate]
        omega
      have hmll : max_line_length ((ls.map (Line.to_exact d.width))
          ++ List.replicate (d.height - (ls.map (Line.to_exact d.width)).length)
              (Line.default.to_exact d.width)) = d.width := by
        apply max_line_length_const
        · intro hnil
          rw [hnil] at hlen
          simp at hlen
          omega
        · intro l hl
          rcases List.mem_append.mp hl with hcase | hcase
          · rcases List.mem_map.mp hcase with ⟨orig, _, rfl⟩
            exact to_exact_len orig d.width
          · rw [List.eq_of_mem_replicate hcase]
            exact to_exact_len Line.default d.width
      simp only [Lines.dimensions]
      rw [hmll, hlen]

theorem step_out_dims (m : Dimensions) (out : Lines) (d : Dimensions) :
    Lines.dimensions (Expanding.step m out d).2
      = if ((m.union out.dimensions).intersect d).height = 0 then ⟨0, 0⟩
        else (m.union out.dimensions).intersect d := by
  simp only [Expanding.step]
  exact set_exact_dims _ _

theorem cellAfter_le_cons (d : Dimensions) (c : Lines) (rest : List Lines) :
    (Expanding.cellAfter d rest).le (Expanding.cellAfter d (c :: rest)) := by
  simp only [Expanding.cellAfter, Expanding.step]
  exact Dimensions.le_union_left _ _

theorem outputs_dims_le (d : Dimensions) :
    ∀ trace : List Lines, ∀ prev ∈ Expanding.outputs d trace,
      (Lines.dimensions prev).le ((Expanding.cellAfter d trace).intersect d) := by
  intro trace
  induction trace with
  | nil => intro prev hp; exact absurd hp (List.not_mem_nil prev)
  | cons c rest ih =>
    intro prev hp
    rcases List.mem_cons.mp hp with hc | hmem
    · subst hc
      rw [step_out_dims]
      split
      · exact ⟨Nat.zero_le _, Nat.zero_le _⟩
      · exact ⟨Nat.le_refl _, Nat.le_refl _⟩
    · refine Dimensions.le_trans (ih prev hmem) ?_
      exact Dimensions.intersect_mono_left d (cellAfter_le_cons d c rest)

/-- C5: for one Expanding instance drawn repeatedly at a fixed offered
dimension, every draw's output occupies at least the dimensions of every
previous output (hence at least their component-wise union intersected with
the offered bound): `rest` holds the child outputs of the previous draws
(most recent first) and `newest` is the current draw's child output. -/
theorem expanding_never_shrinks (d : Dimensions) (rest : List Lines) (newest : Lines) :
    ∀ prev ∈ Expanding.outputs d rest,
      (Lines.dimensions prev).le
        (Lines.dimensions (Expanding.step (Expanding.cellAfter d rest) newest d).2) := by
  intro prev hp
  have h1 := outputs_dims_le d rest prev hp
  have h2 : ((Expanding.cellAfter d rest).intersect d).le
      (((Expanding.cellAfter d rest).union newest.dimensions).intersect d) :=
    Dimensions.intersect_mono_left d (Dimensions.le_union_left _ _)
  rw [step_out_dims]
  split
  · rename_i hzero
    have hle := Dimensions.le_trans h1 h2
    have hlen0 : prev.length
        ≤ (((Expanding.cellAfter d rest).union newest.dimensions).intersect d).height :=
      hle.2
    have hprev : prev = [] := List.length_eq_zero.mp (by omega)
    subst hprev
    exact ⟨Nat.le_refl _, Nat.le_refl _⟩
  · exact Dimensions.le_trans h1 h2

/-- C5 witness: draws with child outputs of 1 row, then 3 rows, then 1 row:
the second output (3 rows) is dimension-dominated by the third output, which
therefore still occupies 3 rows. -/
theorem expanding_never_shrinks_witness :
    ((Expanding.step (Expanding.cellAfter ⟨5, 5⟩ [rowsOf 1]) (rowsOf 3) ⟨5, 5⟩).2
        ∈ Expanding.outputs ⟨5, 5⟩ [rowsOf 3, rowsOf 1])
      ∧ (Lines.dimensions
            (Expanding.step (Expanding.cellAfter ⟨5, 5⟩ [rowsOf 1]) (rowsOf 3) ⟨5, 5⟩).2).le
          (Lines.dimensions
            (Expanding.step (Expanding.cellAfter ⟨5, 5⟩ [rowsOf 3, rowsOf 1])
              (rowsOf 1) ⟨5, 5⟩).2)
      ∧ (Expanding.step (Expanding.cellAfter ⟨5, 5⟩ [rowsOf 3, rowsOf 1])
          (rowsOf 1) ⟨5, 5⟩).2.length = 3 :=
  ⟨by decide,
   expanding_never_shrinks ⟨5, 5⟩ [rowsOf 3, rowsOf 1] (rowsOf 1) _ (by decide),
   by decide⟩

/-!
Console render-cycle lemmas (earlier snapshot).
-/

namespace V1

theorem except_bind_ok {α β : Type} (a : α) (f : α → Except ε β) :
    ((Except.ok a : Except ε α) >>= f) = f a := rfl

theorem except_bind_error {α β : Type} (e : ε) (f : α → Except ε β) :
    ((Except.error e : Except ε α) >>= f) = .error e := rfl

theorem render_general_ok {ε : Type} (O : Ops ε)
    (root : Dimensions → DrawMode → Except ε (List Line)) (c : Console) (mode : DrawMode)
    (size : Dimensions) (c' : Console) (buf : List Nat)
    (h : render_general O root c mode size = .ok (c', buf)) :
    ∃ mu frame eB fB clr,
      root size mode = .ok frame
      ∧ renderLines O (c.to_emit.take (emitAmt mode c.to_emit size frame.length)) = .ok eB
      ∧ renderLines O frame = .ok fB
      ∧ c' = ⟨c.to_emit.drop (emitAmt mode c.to_emit size frame.length),
              newHeightOf mode frame, c.default_size⟩
      ∧ buf = mu ++ eB ++ fB ++ clr := by
  unfold render_general at h
  rcases hmu : Canvas.move_up O c.lastHeight with e | mu
  · simp only [hmu, except_bind_error] at h
    exact Except.noConfusion h
  simp only [hmu, except_bind_ok] at h
  rcases hfr : root size mode with e | frame
  · simp only [hfr, except_bind_error] at h
    exact Except.noConfusion h
  simp only [hfr, except_bind_ok] at h
  rcases hEB : renderLines O
      (c.to_emit.take (emitAmt mode c.to_emit size frame.length)) with e | eB
  · simp only [hEB, except_bind_error] at h
    exact Except.noConfusion h
  simp only [hEB, except_bind_ok] at h
  rcases hFB : renderLines O frame with e | fB
  · simp only [hFB, except_bind_error] at h
    exact Except.noConfusion h
  simp only [hFB, except_bind_ok] at h
  rcases hclr : O.clearDown with e | clr
  · simp only [hclr, except_bind_error] at h
    exact Except.noConfusion h
  simp only [hclr, except_bind_ok, Except.ok.injEq, Prod.mk.injEq] at h
  exact ⟨mu, frame, eB, fB, clr, rfl, hEB, hFB, h.1.symm, h.2.symm⟩

theorem render_with_mode_error_sink {ε : Type} {O : Ops ε}
    {root : Dimensions → DrawMode → Except ε (List Line)} {c : Console} {mode : DrawMode}
    {sink : List (List Nat)} {e : ε} {s' : List (List Nat)}
    (h : render_with_mode O root c mode sink = (.error e, s')) : s' = sink := by
  unfold render_with_mode at h
  split at h
  · simp at h
  · simp only [Prod.mk.injEq] at h
    exact h.2.symm

theorem render_with_mode_ok_shape {ε : Type} {O : Ops ε}
    {root : Dimensions → DrawMode → Except ε (List Line)} {c : Console} {mode : DrawMode}
    {sink : List (List Nat)} {c' : Console} {s' : List (List Nat)}
    (h : render_with_mode O root c mode sink = (.ok c', s')) :
    ∃ size buf, Console.size O c = .ok size
      ∧ render_general O root c mode size = .ok (c', buf)
      ∧ s' = sink ++ [buf] := by
  unfold render_with_mode at h
  rcases hsz : Console.size O c with e | size
  · simp only [hsz, except_bind_error] at h
    simp only [Prod.mk.injEq] at h
    exact Except.noConfusion h.1
  · simp only [hsz, except_bind_ok] at h
    rcases hr : render_general O root c mode size with e | ⟨c'', buf⟩
    · simp only [hr] at h
      simp only [Prod.mk.injEq] at h
      exact Except.noConfusion h.1
    · simp only [hr, Prod.mk.injEq, Except.ok.injEq] at h
      exact ⟨size, buf, rfl, by rw [hr, h.1], h.2.symm⟩

/-- The emitted-line drain of one successful Normal cycle: an empty queue
stays empty, and a non-empty queue strictly shrinks (the drain amount is at
least `min(queue length, MINIMUM_EMIT) ≥ 1`). -/
theorem render_with_mode_ok_queue {ε : Type} {O : Ops ε}
    {root : Dimensions → DrawMode → Except ε (List Line)} {c : Console}
    {sink : List (List Nat)} {c' : Console} {s' : List (List Nat)}
    (h : render_with_mode O root c .Normal sink = (.ok c', s')) :
    (c.to_emit = [] ∧ c'.to_emit = []) ∨ c'.to_emit.length < c.to_emit.length := by
  rcases render_with_mode_ok_shape h with ⟨size, buf, _, hr, _⟩
  rcases render_general_ok O root c .Normal size c' buf hr with
    ⟨mu, frame, eB, fB, clr, _, _, _, hc', _⟩
  rcases hq : c.to_emit with _ | ⟨l, q⟩
  · left
    constructor
    · rfl
    · rw [hc', hq]
      simp
  · right
    rw [hc', hq]
    have hamt : 1 ≤ emitAmt .Normal (l :: q) size frame.length := by
      rcases hbig : is_big (l :: q) with _ | _
      · simp only [emitAmt, emitLimit, hbig, Bool.false_eq_true, if_false,
          Option.getD_some, List.length_cons, MINIMUM_EMIT]
        omega
      · simp [emitAmt, emitLimit, hbig, MINIMUM_EMIT]
    simp only [List.length_drop, List.length_cons]
    omega

/-- The `render` loop performs exactly one cycle: the first cycle either
fails (nothing was written) or succeeds, and after a successful cycle the
exit condition always holds, because `anything_emitted` is the test
`last_len == to_emit.len()`, which is false whenever the cycle drained
anything and the queue only fails to shrink when it was and stays empty. -/
theorem renderLoop_succ {ε : Type} (O : Ops ε)
    (root : Dimensions → DrawMode → Except ε (List Line)) (fuel : Nat) (c : Console)
    (sink : List (List Nat)) (has_rendered anything_emitted : Bool) :
    renderLoop O root (fuel + 1) c sink has_rendered anything_emitted
      = if ¬has_rendered ∨ (anything_emitted ∧ c.to_emit ≠ []) then
          let last_len := c.to_emit.length
          match render_with_mode O root c .Normal sink with
          | (.ok c', sink') =>
            renderLoop O root fuel c' sink' true (decide (last_len = c'.to_emit.length))
          | (.error e, sink') => some (.error e, sink')
        else some (.ok c, sink) := rfl

theorem render_eq_single {ε : Type} (O : Ops ε)
    (root : Dimensions → DrawMode → Except ε (List Line)) (c : Console)
    (sink : List (List Nat)) :
    render O root c sink = some (render_with_mode O root c .Normal sink) := by
  unfold render
  show renderLoop O root (c.to_emit.length + 1 + 1) c sink false true = _
  rw [renderLoop_succ, if_pos (by simp)]
  rcases hr : render_with_mode O root c .Normal sink with ⟨res, s'⟩
  rcases res with e | c'
  · rfl
  · show renderLoop O root (c.to_emit.length + 1) c' s' true
        (decide (c.to_emit.length = c'.to_emit.length)) = some (.ok c', s')
    have hstop : ¬ (¬ ((true : Bool) = true)
        ∨ ((decide (c.to_emit.length = c'.to_emit.length)) = true
            ∧ c'.to_emit ≠ [])) := by
      intro hcond
      rcases hcond with hfalse | ⟨heq, hne⟩
      · exact hfalse rfl
      · rcases render_with_mode_ok_queue hr with ⟨h1, h2⟩ | hlt
        · exact hne h2
        · rw [decide_eq_true_eq] at heq
          omega
    rw [renderLoop_succ, if_neg hstop]

end V1

/-!
Claim theorems for the console render cycle.
-/

/-- C6: for every render or finalize cycle (`render_with_mode`, which
`finalize` is with Final mode and which `render`'s loop repeats), if any
stage — size acquisition, cursor repositioning, component draw, or line
rendering — fails, nothing is written to the sink and the error is returned;
bytes reach the sink only as the whole successfully produced cycle buffer.
The third conjunct extends this to a whole failing `render` call. -/
theorem render_error_writes_nothing {ε : Type} (O : V1.Ops ε)
    (root : Dimensions → DrawMode → Except ε (List V1.Line)) (c : V1.Console)
    (mode : DrawMode) (sink : List (List Nat)) :
    (∀ e s', V1.render_with_mode O root c mode sink = (.error e, s') → s' = sink)
    ∧ (∀ c' s', V1.render_with_mode O root c mode sink = (.ok c', s') →
        ∃ buf, s' = sink ++ [buf])
    ∧ (∀ e s', V1.render O root c sink = some (.error e, s') → s' = sink) := by
  refine ⟨fun e s' h => V1.render_with_mode_error_sink h, fun c' s' h => ?_,
    fun e s' h => ?_⟩
  · rcases V1.render_with_mode_ok_shape h with ⟨size, buf, _, _, hs⟩
    exact ⟨buf, hs⟩
  · rw [V1.render_eq_single O root c sink] at h
    exact V1.render_with_mode_error_sink (Option.some.inj h)

/-- C6 witness: the failing-size console writes nothing and keeps the sink
intact; the succeeding console hands the sink exactly one buffer. -/
theorem render_error_writes_nothing_witness :
    ([[3]] : List (List Nat)) = [[3]]
      ∧ ∃ buf, ([[0, 0, 0, 0, 0, 7]] : List (List Nat)) = [] ++ [buf] :=
  ⟨(render_error_writes_nothing exFailOps exRoot exConsole6 .Normal [[3]]).1 () [[3]] rfl,
   (render_error_writes_nothing exOps exRoot exConsole6 .Normal []).2.1
     ⟨[exLine], 0, none⟩ [[0, 0, 0, 0, 0, 7]] rfl⟩

/-- C9: within one successful render cycle, the flushed emitted lines (a
front segment of the queue) are rendered into the buffer strictly before the
freshly drawn frame's lines, and the whole cycle's output reaches the sink
as one buffer appended by a single write. -/
theorem emitted_before_frame_single_write {ε : Type} {O : V1.Ops ε}
    {root : Dimensions → DrawMode → Except ε (List V1.Line)} {c : V1.Console}
    {mode : DrawMode} {sink : List (List Nat)} {c' : V1.Console} {s' : List (List Nat)}
    (h : V1.render_with_mode O root c mode sink = (.ok c', s')) :
    ∃ size frame amt mu eB fB clr,
      V1.Console.size O c = .ok size
      ∧ root size mode = .ok frame
      ∧ V1.renderLines O (c.to_emit.take amt) = .ok eB
      ∧ V1.renderLines O frame = .ok fB
      ∧ c'.to_emit = c.to_emit.drop amt
      ∧ s' = sink ++ [mu ++ eB ++ fB ++ clr] := by
  rcases V1.render_with_mode_ok_shape h with ⟨size, buf, hsz, hr, hs⟩
  rcases V1.render_general_ok O root c mode size c' buf hr with
    ⟨mu, frame, eB, fB, clr, hfr, hEB, hFB, hc', hbuf⟩
  exact ⟨size, frame, _, mu, eB, fB, clr, hsz, hfr, hEB, hFB, by rw [hc'],
    by rw [hs, hbuf]⟩

/-- C9 witness: the six-line console's successful Normal cycle, applying the
theorem at the concrete run. -/
theorem emitted_before_frame_single_write_witness :
    ∃ size frame amt mu eB fB clr,
      V1.Console.size exOps exConsole6 = .ok size
      ∧ exRoot size .Normal = .ok frame
      ∧ V1.renderLines exOps (exConsole6.to_emit.take amt) = .ok eB
      ∧ V1.renderLines exOps frame = .ok fB
      ∧ (⟨[exLine], 0, none⟩ : V1.Console).to_emit = exConsole6.to_emit.drop amt
      ∧ ([[0, 0, 0, 0, 0, 7]] : List (List Nat)) = [] ++ [mu ++ eB ++ fB ++ clr] :=
  @emitted_before_frame_single_write Unit exOps exRoot exConsole6 .Normal []
    ⟨[exLine], 0, none⟩ [[0, 0, 0, 0, 0, 7]] rfl

/-- C3 amended: in a successful Normal cycle, an oversized queue (summed
grapheme length above `MAX_GRAPHEME_BUFFER`) is flushed entirely with no
cap; otherwise the number of flushed lines is exactly the queue length capped
at `max(screen height − frame height, MINIMUM_EMIT)` — hence at least
`min(MINIMUM_EMIT, queue length)` lines, which is never zero for a non-empty
queue (the claim's "at least 5" only holds when at least 5 lines are
queued). -/
theorem render_flush_amount {ε : Type} (O : V1.Ops ε)
    (root : Dimensions → DrawMode → Except ε (List V1.Line)) (c : V1.Console)
    (size : Dimensions) (frame : List V1.Line) (c' : V1.Console) (buf : List Nat)
    (hroot : root size .Normal = .ok frame)
    (h : V1.render_general O root c .Normal size = .ok (c', buf)) :
    (V1.is_big c.to_emit = true → c'.to_emit = [])
    ∧ (V1.is_big c.to_emit = false →
        c.to_emit.length - c'.to_emit.length
            = min (max (size.height - frame.length) V1.MINIMUM_EMIT) c.to_emit.length
          ∧ (c.to_emit ≠ [] → c'.to_emit.length < c.to_emit.length)) := by
  rcases V1.render_general_ok O root c .Normal size c' buf h with
    ⟨mu, frame', eB, fB, clr, hfr, hEB, hFB, hc', hbuf⟩
  rw [hroot] at hfr
  have hff : frame' = frame := (Except.ok.inj hfr).symm
  subst hff
  constructor
  · intro hbig
    rw [hc']
    simp [V1.emitAmt, V1.emitLimit, hbig]
  · intro hbig
    rw [hc']
    simp only [V1.emitAmt, V1.emitLimit, hbig, Bool.false_eq_true, if_false,
      Option.getD_some, List.length_drop]
    constructor
    · omega
    · intro hne
      have hpos : 0 < c.to_emit.length := List.length_pos.mpr hne
      unfold V1.MINIMUM_EMIT
      omega

/-- C3 witness: seven queued one-grapheme lines on a 100×2 terminal with an
empty frame flush exactly `min(max(2 − 0, 5), 7) = 5` lines. -/
theorem render_flush_amount_witness :
    (exRoot ⟨100, 2⟩ .Normal = .ok [])
    ∧ ((V1.is_big exConsole7.to_emit = true →
          (⟨List.replicate 2 exLine, 0, none⟩ : V1.Console).to_emit = [])
      ∧ (V1.is_big exConsole7.to_emit = false →
          exConsole7.to_emit.length
              - (⟨List.replicate 2 exLine, 0, none⟩ : V1.Console).to_emit.length
              = min (max ((⟨100, 2⟩ : Dimensions).height - ([] : List V1.Line).length)
                  V1.MINIMUM_EMIT) exConsole7.to_emit.length
            ∧ (exConsole7.to_emit ≠ [] →
                (⟨List.replicate 2 exLine, 0, none⟩ : V1.Console).to_emit.length
                  < exConsole7.to_emit.length))) :=
  ⟨rfl, render_flush_amount exOps exRoot exConsole7 ⟨100, 2⟩ []
    ⟨List.replicate 2 exLine, 0, none⟩ [0, 0, 0, 0, 0, 7] rfl rfl⟩

/-- C3 counterexample: a single queued line on a 100×2 terminal is flushed as
the only line of a non-empty queue — 1 line, strictly fewer than the claimed
minimum of 5 flushed lines per cycle. -/
theorem render_flush_under_minimum_emit :
    V1.render_general exOps exRoot exConsole1 .Normal ⟨100, 2⟩
        = .ok (⟨[], 0, none⟩, [0, 7])
      ∧ exConsole1.to_emit ≠ []
      ∧ exConsole1.to_emit.length - ([] : List V1.Line).length = 1
      ∧ ¬ (V1.MINIMUM_EMIT ≤ 1) :=
  ⟨rfl, by decide, by decide, by decide⟩

/-- C1: the code evaluated at the failing input — six queued one-grapheme
lines, a blank frame, terminal 100×2.  One cycle drains `MINIMUM_EMIT = 5`
lines, so the queue shrank; `render` nevertheless returns at once with one
line still queued, because `anything_emitted` is computed as
`last_len == to_emit.len()` — true exactly when the cycle removed nothing —
inverting the loop's documented "repeat until done" exit condition. -/
theorem render_returns_with_shrunk_nonempty_queue :
    V1.render exOps exRoot exConsole6 []
        = some (.ok ⟨[exLine], 0, none⟩, [[0, 0, 0, 0, 0, 7]])
      ∧ exConsole6.to_emit.length = 6
      ∧ ([exLine] : List V1.Line) ≠ [] :=
  ⟨rfl, by decide, by decide⟩

end Superconsole
